import Mathlib

/-!
Verification development for the Gemini + Notion integration service
(`gemini_notion_app.py`).  The pure data-transformation core of the
program is shallowly embedded here: the property normalizer, the record
parser, the cursor-following paginated fetcher, the three aggregation
modes (full dump is not needed by any claim), the context compressor,
and the decision logic of the HTTP handlers.  Remote I/O is modelled by
passing in the sequence of responses the remote API would return.
-/

namespace NotionApp

/-! ## Raw data model

A remote property value is a tagged union.  In the source a property is
a JSON object holding a `type` tag plus a payload under the key equal to
the tag; here each recognized tag is one constructor carrying its
payload.  `other` covers any unrecognized tag and `untagged` covers a
property object whose `type` key is absent (or falsy). Dictionary keys
that may be absent are `Option`s; an absent key corresponds to `none`
and the source reads it with `.get(key, default)`. -/

/-- One element of a `title` or `rich_text` list: `plain_text` read with
default `""`. -/
structure TextRun where
  plain_text : Option String
deriving DecidableEq, Repr

/-- Payload of a `date` property: `start` read with default `""`. -/
structure DateObj where
  start : Option String
deriving DecidableEq, Repr

/-- Payload element of `select` / `multi_select`: `name` read with
default `""`. -/
structure SelectOption where
  name : Option String
deriving DecidableEq, Repr

/-- A typed remote property value. `date none` / `select none` model a
JSON `null` (falsy) payload; an empty object payload is `some` of a
structure with all-`none` fields, which the source treats the same way. -/
inductive RawProp where
  | title (runs : List TextRun)
  | rich_text (runs : List TextRun)
  | url (u : Option String)
  | date (d : Option DateObj)
  | select (s : Option SelectOption)
  | multi_select (items : List SelectOption)
  | other (tag : String)
  | untagged
deriving DecidableEq, Repr

/-- A raw remote record (`page`): `id` / `url` / `created_time` read with
default `""`, plus the ordered property dictionary. -/
structure RawPage where
  id : Option String
  url : Option String
  created_time : Option String
  properties : List (String × RawProp)
deriving DecidableEq, Repr

/-- A normalized property value as produced by the source: a Python
string or a Python list of strings (a returned `None` is modelled by
`Option.none` around this type). -/
inductive NormValue where
  | s (v : String)
  | l (v : List String)
deriving DecidableEq, Repr

/-- Python truthiness of a normalized value: non-empty string or
non-empty list. -/
def truthyNV : NormValue → Bool
  | .s v => !v.isEmpty
  | .l v => !v.isEmpty

/-! ## Property Normalizer (source lines 50-75, `get_property_value`) -/

/-- The per-tag branch of `get_property_value`: given the property
object, produce its normalized value, or `none` for a missing/falsy
`type` tag or an unrecognized tag. -/
def normalize_prop : RawProp → Option NormValue
  | .untagged => none
  | .title runs =>
      some (.s (match runs with
        | [] => ""
        | r :: _ => r.plain_text.getD ""))
  | .rich_text runs =>
      some (.s (String.intercalate " " (runs.map (fun t => t.plain_text.getD ""))))
  | .url u => some (.s (u.getD ""))
  | .date d =>
      some (.s (match d with
        | none => ""
        | some ob => ob.start.getD ""))
  | .select s =>
      some (.s (match s with
        | none => ""
        | some ob => ob.name.getD ""))
  | .multi_select items =>
      some (.l (items.map (fun it => it.name.getD "")))
  | .other _ => none

/-- `get_property_value(properties, property_name)`: look the property
up in the dictionary (a missing name gives the empty object `\x7b\x7d`,
which has no `type` tag, hence `None`), then normalize by tag. -/
def get_property_value (properties : List (String × RawProp)) (property_name : String) :
    Option NormValue :=
  match properties.find? (fun kv => kv.1 == property_name) with
  | none => none
  | some kv => normalize_prop kv.2

/-! ## Record Parser (source lines 77-93, `parse_notion_page`) -/

/-- The normalized record produced by `parse_notion_page`. -/
structure ParsedPage where
  id : String
  url : String
  created : String
  properties : List (String × NormValue)
deriving DecidableEq, Repr

/-- `parse_notion_page(page)`: copy `id` / `url` / `created_time` with
default `""`, then for each property name in order insert the normalized
value, but only when it is truthy. -/
def parse_notion_page (page : RawPage) : ParsedPage :=
  { id := page.id.getD ""
    url := page.url.getD ""
    created := page.created_time.getD ""
    properties :=
      (page.properties.map Prod.fst).foldl
        (fun acc prop_name =>
          match get_property_value page.properties prop_name with
          | some value => if truthyNV value then acc ++ [(prop_name, value)] else acc
          | none => acc)
        [] }

/-! ## Paginated Fetcher (source lines 26-48, `get_all_database_entries`)

The remote collection API is modelled by the sequence of responses it
returns to the successive query requests of one run; the loop consumes
them in order.  A response carries the HTTP status plus the decoded
body fields the source reads: `results` (default `[]`), `has_more`
(default `False`) and `next_cursor`. -/

/-- One remote response to a query request. -/
structure PageResponse where
  status_code : Nat
  results : List RawPage
  has_more : Bool
  next_cursor : Option String
deriving DecidableEq, Repr

/-- The `while has_more` loop: on a 200 response extend the accumulator
with `results` and continue exactly when the response says
`has_more`; on any other status stop and keep the accumulator.  The
third argument is the `next_cursor` state (dead for the returned
records, kept because the source threads it into the next request). -/
def fetch_loop : List PageResponse → List RawPage → Option String → List RawPage
  | [], all_results, _ => all_results
  | r :: rest, all_results, _cursor =>
      if r.status_code == 200 then
        let all_results := all_results ++ r.results
        if r.has_more then fetch_loop rest all_results r.next_cursor
        else all_results
      else all_results

/-- `get_all_database_entries`, given the remote response sequence:
start with no results, `has_more = True`, `next_cursor = None`. -/
def get_all_database_entries (responses : List PageResponse) : List RawPage :=
  fetch_loop responses [] none

/-- The responses actually consumed by one run of the pagination loop:
a response is consumed when a request was issued for it; the loop goes
on past it exactly when it is a 200 response with `has_more`. -/
def consumedPages : List PageResponse → List PageResponse
  | [] => []
  | r :: rest =>
      r :: (if r.status_code == 200 && r.has_more then consumedPages rest else [])

/-- The `start_cursor` actually placed in the request payload for a
stored `next_cursor` state: the source adds the key only when the value
is truthy, so `None` and `""` both yield a request without a cursor. -/
def sentCursor : Option String → Option String
  | none => none
  | some s => if s.isEmpty then none else some s

/-- The cursor part of the request trace: the cursor sent with each
consumed request, in order. -/
def cursor_loop : List PageResponse → Option String → List (Option String)
  | [], _ => []
  | r :: rest, c =>
      sentCursor c ::
        (if r.status_code == 200 && r.has_more then cursor_loop rest r.next_cursor else [])

/-- The sequence of `start_cursor`s sent by one run of
`get_all_database_entries` (the first request has cursor state `None`). -/
def fetchRequestCursors (responses : List PageResponse) : List (Option String) :=
  cursor_loop responses none

/-! ## String helpers

The Python operations the source uses on strings — `in` (substring
containment), `.lower()`, `>=` (code-point lexicographic order) and
`.split()` (split on whitespace runs, dropping empties) — are embedded
as structural functions on the character list so that they evaluate by
`decide`.  `.lower()` is modelled on the ASCII range, which covers every
string the claims exercise. -/

/-- Does the first list start with the second? -/
def listStartsWith : List Char → List Char → Bool
  | _, [] => true
  | [], _ :: _ => false
  | a :: as, b :: bs => a == b && listStartsWith as bs

/-- Does the first list contain the second as a contiguous run? -/
def listContainsSeq : List Char → List Char → Bool
  | [], needle => needle.isEmpty
  | hay@(_ :: rest), needle => listStartsWith hay needle || listContainsSeq rest needle

/-- Python `needle in haystack` on strings. -/
def strContains (haystack needle : String) : Bool :=
  listContainsSeq haystack.data needle.data

/-- Python `s.lower()` (ASCII letters). -/
def strToLower (s : String) : String :=
  String.mk (s.data.map Char.toLower)

/-- Code-point lexicographic order on character lists. -/
def charListLe : List Char → List Char → Bool
  | [], _ => true
  | _ :: _, [] => false
  | a :: as, b :: bs => if a < b then true else if b < a then false else charListLe as bs

/-- Python `a <= b` on strings: code-point lexicographic order. -/
def strLe (a b : String) : Bool := charListLe a.data b.data

/-- Split a character list into maximal non-whitespace runs. -/
def splitRuns : List Char → List Char → List String
  | [], acc => if acc.isEmpty then [] else [String.mk acc.reverse]
  | c :: rest, acc =>
      if c.isWhitespace then
        (if acc.isEmpty then [] else [String.mk acc.reverse]) ++ splitRuns rest []
      else splitRuns rest (c :: acc)

/-- Python `s.split()` with no separator: whitespace runs, no empties. -/
def pySplit (s : String) : List String := splitRuns s.data []

/-! ## Compact JSON serialization (`json.dumps` with default options)

Used by the keyword search on the normalized properties mapping.
`json.dumps` escapes the quote, the backslash and control characters,
emits named escapes for the common ones, and (with the default
`ensure_ascii=True`) turns every non-ASCII character into a lowercase
`\uXXXX` escape (a surrogate pair beyond the basic plane). -/

/-- Lowercase hexadecimal digit. -/
def hexDigit (n : Nat) : Char :=
  if n < 10 then Char.ofNat (48 + n) else Char.ofNat (87 + n)

/-- Four-digit lowercase hexadecimal rendering of `n < 65536`. -/
def hex4 (n : Nat) : String :=
  String.mk [hexDigit (n / 4096 % 16), hexDigit (n / 256 % 16), hexDigit (n / 16 % 16),
    hexDigit (n % 16)]

/-- How `json.dumps` renders one character inside a string literal. -/
def jsonEscapeChar (c : Char) : String :=
  if c == '"' then "\\\""
  else if c == '\\' then "\\\\"
  else if c == '\n' then "\\n"
  else if c == '\t' then "\\t"
  else if c == '\r' then "\\r"
  else if c.toNat == 8 then "\\b"
  else if c.toNat == 12 then "\\f"
  else if c.toNat < 32 then "\\u" ++ hex4 c.toNat
  else if c.toNat < 127 then String.singleton c
  else if c.toNat < 65536 then "\\u" ++ hex4 c.toNat
  else
    let n := c.toNat - 65536
    "\\u" ++ hex4 (55296 + n / 1024) ++ "\\u" ++ hex4 (56320 + n % 1024)

/-- A JSON string literal for `s`. -/
def jsonQuote (s : String) : String :=
  "\"" ++ String.join (s.data.map jsonEscapeChar) ++ "\""

/-- Compact `json.dumps` of one normalized value. -/
def jsonDumpNV : NormValue → String
  | .s v => jsonQuote v
  | .l vs => "[" ++ String.intercalate ", " (vs.map jsonQuote) ++ "]"

/-- Compact `json.dumps` of a normalized `properties` mapping. -/
def jsonDumpProps (props : List (String × NormValue)) : String :=
  "\x7b" ++
    String.intercalate ", " (props.map (fun kv => jsonQuote kv.1 ++ ": " ++ jsonDumpNV kv.2)) ++
  "\x7d"

/-! ## Keyword search (source lines 95-110, `search_databases`)

The configured collection list `DATABASE_IDS` and the remote API are
passed in: `remote db` is the response sequence the remote returns for
the pagination run over collection `db`. -/

/-- `search_databases(keyword)`: for every configured database in order,
fetch and parse every entry, and append the pair (database id, parsed
entry) whenever the lower-cased compact serialization of the parsed
properties contains the lower-cased keyword. -/
def search_databases (dbs : List String) (remote : String → List PageResponse)
    (keyword : String) : List (String × ParsedPage) :=
  dbs.foldl
    (fun results db_id =>
      (get_all_database_entries (remote db_id)).foldl
        (fun rs entry =>
          let parsed := parse_notion_page entry
          let entry_text := strToLower (jsonDumpProps parsed.properties)
          if strContains entry_text (strToLower keyword) then rs ++ [(db_id, parsed)]
          else rs)
        results)
    []

/-! ## Recency window (source lines 112-128, `get_recent_entries`)

The cutoff `(datetime.now() - timedelta(days=days)).isoformat()` is an
ISO-8601 string computed from the wall clock; it enters the embedding as
the opaque string parameter `cutoff_date`, and the string `>=` of the source
is the code-point lexicographic order `strLe cutoff_date created`. -/

/-- `get_recent_entries`: for every configured database in order, keep
the raw entries whose `created_time` (default `""`) is lexically at
least the cutoff, parse them, and record the database only when at
least one entry qualifies. -/
def get_recent_entries (dbs : List String) (remote : String → List PageResponse)
    (cutoff_date : String) : List (String × List ParsedPage) :=
  dbs.foldl
    (fun recent db_id =>
      let entries := get_all_database_entries (remote db_id)
      let recent_entries := entries.foldl
        (fun re entry =>
          if strLe cutoff_date (entry.created_time.getD "") then re ++ [parse_notion_page entry]
          else re)
        []
      if recent_entries.isEmpty then recent else recent ++ [(db_id, recent_entries)])
    []

/-! ## Context Compressor (source lines 145-155, `create_notion_context`)

The input is an arbitrary Python value built out of strings, integers,
`None`, lists and string-keyed dictionaries — which covers everything
the callers pass in.  The dictionary branch pretty-prints each value
with `json.dumps(value, indent=2)`; the other branch stringifies the
whole input with `str(...)`, which for containers is their `repr`. -/

/-- A Python value of the shapes that reach the context compressor. -/
inductive PyVal where
  | str (s : String)
  | int (n : Int)
  | none_
  | list (xs : List PyVal)
  | dict (kvs : List (String × PyVal))

/-- Is this value a Python `dict`? (`isinstance(x, dict)`) -/
def PyVal.isDict : PyVal → Bool
  | .dict _ => true
  | _ => false

/-- A run of `n` spaces. -/
def indentStr (n : Nat) : String := String.mk (List.replicate n ' ')

mutual

/-- `json.dumps(v, indent=2)` rendered at nesting level `lvl`: empty
containers stay compact, non-empty ones put each element on its own
line indented two more spaces, with `", "`-free separators `",\n"` and
`": "`. -/
def json_dumps_indent2_at : PyVal → Nat → String
  | .str s, _ => jsonQuote s
  | .int n, _ => toString n
  | .none_, _ => "null"
  | .list [], _ => "[]"
  | .list (x :: xs), lvl =>
      "[\n" ++ dumpItems (x :: xs) (lvl + 1) ++ "\n" ++ indentStr (2 * lvl) ++ "]"
  | .dict [], _ => "\x7b\x7d"
  | .dict (kv :: kvs), lvl =>
      "\x7b\n" ++ dumpPairs (kv :: kvs) (lvl + 1) ++ "\n" ++ indentStr (2 * lvl) ++ "\x7d"

/-- The lines of a non-empty JSON array body. -/
def dumpItems : List PyVal → Nat → String
  | [], _ => ""
  | [x], lvl => indentStr (2 * lvl) ++ json_dumps_indent2_at x lvl
  | x :: y :: xs, lvl =>
      indentStr (2 * lvl) ++ json_dumps_indent2_at x lvl ++ ",\n" ++ dumpItems (y :: xs) lvl

/-- The lines of a non-empty JSON object body. -/
def dumpPairs : List (String × PyVal) → Nat → String
  | [], _ => ""
  | [kv], lvl => indentStr (2 * lvl) ++ jsonQuote kv.1 ++ ": " ++ json_dumps_indent2_at kv.2 lvl
  | kv :: kv2 :: kvs, lvl =>
      indentStr (2 * lvl) ++ jsonQuote kv.1 ++ ": " ++ json_dumps_indent2_at kv.2 lvl ++ ",\n" ++
        dumpPairs (kv2 :: kvs) lvl

end

/-- `json.dumps(v, indent=2)` at top level. -/
def json_dumps_indent2 (v : PyVal) : String := json_dumps_indent2_at v 0

/-- Two-digit lowercase hexadecimal rendering of `n < 256`. -/
def hex2 (n : Nat) : String := String.mk [hexDigit (n / 16 % 16), hexDigit (n % 16)]

/-- The apostrophe character, Python's preferred `repr` quote. -/
def aposChar : Char := Char.ofNat 39

/-- Python `repr` of a string (faithful on the ASCII range): single
quotes unless the string holds an apostrophe but no double quote;
backslash, the chosen quote and control characters escaped. -/
def pyReprStr (s : String) : String :=
  let q : Char := if s.data.contains aposChar && !(s.data.contains '"') then '"' else aposChar
  let esc : Char → String := fun c =>
    if c == '\\' then "\\\\"
    else if c == q then "\\" ++ String.singleton q
    else if c == '\n' then "\\n"
    else if c == '\r' then "\\r"
    else if c == '\t' then "\\t"
    else if c.toNat < 32 || c.toNat == 127 then "\\x" ++ hex2 c.toNat
    else String.singleton c
  String.singleton q ++ String.join (s.data.map esc) ++ String.singleton q

mutual

/-- Python `repr` of a value. -/
def pyRepr : PyVal → String
  | .str s => pyReprStr s
  | .int n => toString n
  | .none_ => "None"
  | .list xs => "[" ++ pyReprList xs ++ "]"
  | .dict kvs => "\x7b" ++ pyReprPairs kvs ++ "\x7d"

/-- Comma-separated `repr`s of list elements. -/
def pyReprList : List PyVal → String
  | [] => ""
  | [x] => pyRepr x
  | x :: y :: xs => pyRepr x ++ ", " ++ pyReprList (y :: xs)

/-- Comma-separated `repr`s of dictionary items. -/
def pyReprPairs : List (String × PyVal) → String
  | [] => ""
  | [kv] => pyReprStr kv.1 ++ ": " ++ pyRepr kv.2
  | kv :: kv2 :: kvs => pyReprStr kv.1 ++ ": " ++ pyRepr kv.2 ++ ", " ++ pyReprPairs (kv2 :: kvs)

end

/-- Python `str(v)`: the string itself for a string, `repr` otherwise. -/
def pyStr : PyVal → String
  | .str s => s
  | v => pyRepr v

/-- `create_notion_context(data_summary)`: for a dictionary, one part
per item, `key` then `": "` then the pretty-printed JSON of the value;
otherwise one part, `str(data_summary)`; parts joined with newline. -/
def create_notion_context (data_summary : PyVal) : String :=
  let context_parts :=
    match data_summary with
    | .dict kvs =>
        kvs.foldl (fun parts kv => parts ++ [kv.1 ++ ": " ++ json_dumps_indent2 kv.2]) []
    | v => [pyStr v]
  String.intercalate "\n" context_parts

/-! ## Chat intent logic (source lines 266-290, inside `chat`)

The body of the `/chat` handler decides which aggregation mode, if any,
feeds the prompt.  This decision is a pure function of the message and
is embedded as `chat_data_action`. -/

/-- The trigger substrings that make the handler fetch data at all. -/
def search_keywords : List String := ["search", "find", "recent", "latest", "show me", "what"]

/-- The words whose next token becomes the search term. -/
def chat_trigger_words : List String := ["search", "find", "about"]

/-- The scan `for i, word in enumerate(words)` of the handler: the first
word that lower-cases into `chat_trigger_words` and is followed by at
least one more token yields that following token; the scan goes on past
a trigger word in final position. -/
def extract_search_term : List String → Option String
  | [] => none
  | word :: rest =>
      if chat_trigger_words.contains (strToLower word) && !rest.isEmpty then rest.head?
      else extract_search_term rest

/-- Which data fetch the `/chat` handler performs for a message. -/
inductive ChatDataAction where
  | no_data
  | recent (days : Nat)
  | search (term : String)
deriving DecidableEq, Repr

/-- The handler's data decision: fetch only when some member of
`search_keywords` occurs in the lower-cased message; then `recent` /
`latest` selects the recency mode (30 days when `month` occurs without
`week`, else 7), and otherwise the first trigger word followed by a
token selects a keyword search on that token. -/
def chat_data_action (user_message : String) : ChatDataAction :=
  let lower := strToLower user_message
  let should_fetch_data := search_keywords.any (fun k => strContains lower k)
  if should_fetch_data then
    if strContains lower "recent" || strContains lower "latest" then
      .recent (if strContains lower "week" then 7 else if strContains lower "month" then 30 else 7)
    else
      match extract_search_term (pySplit user_message) with
      | some t => .search t
      | none => .no_data
  else .no_data

/-! ## Route handlers (early, pure part)

`/chat` (source lines 238-258): OPTIONS preflight, then the configured
generation key, then the JSON body.  The parsed body is modelled as a
string-keyed dictionary (`none` when `get_json` yields nothing). -/

/-- Outcome of the pure prefix of the `/chat` handler. -/
inductive ChatResponse where
  | noContent204
  | serverError500
  | badRequest400
  | proceed (user_message : String)
deriving DecidableEq, Repr

/-- Python truthiness of an environment variable read with
`os.getenv`. -/
def envTruthy : Option String → Bool
  | none => false
  | some s => !s.isEmpty

/-- The `/chat` handler up to the extraction of `message`: 204 for
OPTIONS, 500 when `GEMINI_API_KEY` is unset or empty, 400 when the body
is missing, an empty dictionary, or lacks a `message` key. -/
def chat_route (method : String) (gemini_api_key : Option String)
    (body : Option (List (String × String))) : ChatResponse :=
  if method == "OPTIONS" then .noContent204
  else if !(envTruthy gemini_api_key) then .serverError500
  else
    match body with
    | none => .badRequest400
    | some data =>
        if data.isEmpty then .badRequest400
        else
          match data.find? (fun kv => kv.1 == "message") with
          | none => .badRequest400
          | some kv => .proceed kv.2

/-! `/search` (source lines 201-216): the `keyword` query parameter is
read with default `""` and any falsy value is rejected with 400. -/

/-- Outcome of the `/search` handler (the catch-all 500 branch guards
only the remote calls, which the embedding makes total). -/
inductive SearchResponse where
  | badRequest400
  | ok (keyword : String) (match_count : Nat) (results : List (String × ParsedPage))
deriving DecidableEq, Repr

/-- The `/search` handler: 400 when the keyword argument read with
default `""` is empty, otherwise the match count and the first ten matches. -/
def search_route (dbs : List String) (remote : String → List PageResponse)
    (args_keyword : Option String) : SearchResponse :=
  let keyword := args_keyword.getD ""
  if keyword.isEmpty then .badRequest400
  else
    let results := search_databases dbs remote keyword
    .ok keyword results.length (results.take 10)

/-! ## General accumulation lemmas

The source builds every result list by appending inside a loop; these
lemmas convert the accumulating folds into `map` / `filter` form. -/

/-- An append-only fold is the initial value followed by the map. -/
theorem foldl_append_map {α β : Type} (g : α → β) :
    ∀ (l : List α) (init : List β),
      l.foldl (fun acc x => acc ++ [g x]) init = init ++ l.map g := by
  intro l
  induction l with
  | nil => intro init; simp
  | cons x xs ih => intro init; simp [ih]

/-- A guarded append-only fold is the initial value followed by the
filtered map. -/
theorem foldl_guard_append_map {α β : Type} (p : α → Bool) (g : α → β) :
    ∀ (l : List α) (init : List β),
      l.foldl (fun acc x => if p x then acc ++ [g x] else acc) init =
        init ++ (l.filter p).map g := by
  intro l
  induction l with
  | nil => intro init; simp
  | cons x xs ih =>
      intro init
      by_cases h : p x
      · simp [h, ih, List.filter_cons]
      · simp [h, ih, List.filter_cons]

/-! ## Record Parser theorems (claim C2) -/

/-- The parser's property fold in `filterMap` form. -/
theorem parse_props_foldl (props : List (String × RawProp)) :
    ∀ (keys : List String) (init : List (String × NormValue)),
      keys.foldl
          (fun acc prop_name =>
            match get_property_value props prop_name with
            | some value => if truthyNV value then acc ++ [(prop_name, value)] else acc
            | none => acc)
          init =
        init ++ keys.filterMap (fun n =>
          match get_property_value props n with
          | some v => if truthyNV v then some (n, v) else none
          | none => none) := by
  intro keys
  induction keys with
  | nil => intro init; simp
  | cons k ks ih =>
      intro init
      simp only [List.foldl_cons, List.filterMap_cons]
      cases h : get_property_value props k with
      | none => simp [ih]
      | some v =>
          by_cases ht : truthyNV v
          · simp [ht, ih]
          · simp [ht, ih]

/-- Claim C2: an entry appears in `parse_notion_page(raw)["properties"]`
exactly for a property name of the raw record whose normalized value is
truthy (a non-null, non-empty value), so the mapping never contains a
null, empty-string or empty-list value. -/
theorem claim_C2_parse_properties (page : RawPage) (n : String) (v : NormValue) :
    (n, v) ∈ (parse_notion_page page).properties ↔
      n ∈ page.properties.map Prod.fst ∧
        get_property_value page.properties n = some v ∧ truthyNV v = true := by
  show (n, v) ∈
      (page.properties.map Prod.fst).foldl
        (fun acc prop_name =>
          match get_property_value page.properties prop_name with
          | some value => if truthyNV value then acc ++ [(prop_name, value)] else acc
          | none => acc)
        [] ↔ _
  rw [parse_props_foldl, List.nil_append, List.mem_filterMap]
  constructor
  · rintro ⟨n', hn', hg⟩
    split at hg
    · split at hg
      · rename_i v' heq ht
        have hp := Option.some.inj hg
        obtain ⟨rfl, rfl⟩ : n' = n ∧ v' = v := ⟨congrArg Prod.fst hp, congrArg Prod.snd hp⟩
        exact ⟨hn', heq, ht⟩
      · exact Option.noConfusion hg
    · exact Option.noConfusion hg
  · rintro ⟨hn, hg, ht⟩
    exact ⟨n, hn, by simp [hg, ht]⟩

/-- Claim C2 witness at a concrete record. -/
theorem claim_C2_witness :
    ("Name", NormValue.s "A") ∈
      (parse_notion_page
        { id := some "1", url := none, created_time := none,
          properties := [("Name", .title [⟨some "A"⟩]), ("Empty", .rich_text [])] }).properties :=
  (claim_C2_parse_properties _ "Name" (.s "A")).mpr ⟨by decide, by decide, by decide⟩

/-! ## Property Normalizer theorems (claim C5) -/

/-- Claim C5: the six recognized type-tags map to their documented
shapes — first title run's plain text (or empty for an empty list),
space-joined rich-text runs, the raw url string, the date start, the
selected option name, the ordered multi-select names — and an
unrecognized tag, a missing tag, or a missing property name yields
null. -/
theorem claim_C5_normalizer (n : String) :
    (∀ r rest, get_property_value [(n, .title (r :: rest))] n = some (.s (r.plain_text.getD ""))) ∧
      get_property_value [(n, .title [])] n = some (.s "") ∧
      (∀ runs, get_property_value [(n, .rich_text runs)] n =
        some (.s (String.intercalate " " (runs.map fun t => t.plain_text.getD "")))) ∧
      (∀ u, get_property_value [(n, .url u)] n = some (.s (u.getD ""))) ∧
      (∀ d, get_property_value [(n, .date d)] n =
        some (.s ((d.map fun ob => ob.start.getD "").getD ""))) ∧
      (∀ s, get_property_value [(n, .select s)] n =
        some (.s ((s.map fun ob => ob.name.getD "").getD ""))) ∧
      (∀ items, get_property_value [(n, .multi_select items)] n =
        some (.l (items.map fun it => it.name.getD ""))) ∧
      (∀ tag, get_property_value [(n, .other tag)] n = none) ∧
      get_property_value [(n, .untagged)] n = none ∧
      (∀ props : List (String × RawProp),
        props.find? (fun kv => kv.1 == n) = none → get_property_value props n = none) := by
  refine ⟨?_, ?_, ?_, ?_, ?_, ?_, ?_, ?_, ?_, ?_⟩
  · intro r rest; simp [get_property_value, normalize_prop]
  · simp [get_property_value, normalize_prop]
  · intro runs; simp [get_property_value, normalize_prop]
  · intro u; simp [get_property_value, normalize_prop]
  · intro d; cases d <;> simp [get_property_value, normalize_prop]
  · intro s; cases s <;> simp [get_property_value, normalize_prop]
  · intro items; simp [get_property_value, normalize_prop]
  · intro tag; simp [get_property_value, normalize_prop]
  · simp [get_property_value, normalize_prop]
  · intro props h; simp [get_property_value, h]

/-- Claim C5 witness at concrete payloads. -/
theorem claim_C5_witness :
    get_property_value [("k", .url (some "http://x"))] "k" = some (.s "http://x") ∧
      get_property_value [] "k" = none :=
  ⟨(claim_C5_normalizer "k").2.2.2.1 (some "http://x"),
    (claim_C5_normalizer "k").2.2.2.2.2.2.2.2.2 [] rfl⟩

/-! ## Context Compressor theorems (claim C9) -/

/-- Claim C9: on a dictionary the compressor yields one part per key,
`key`, a colon-space, and the `indent=2` pretty-printed JSON of the
value, joined with newlines in dictionary order; on anything else it
yields the direct Python stringification of the input. -/
theorem claim_C9_compressor :
    (∀ kvs : List (String × PyVal),
        create_notion_context (.dict kvs) =
          String.intercalate "\n" (kvs.map fun kv => kv.1 ++ ": " ++ json_dumps_indent2 kv.2)) ∧
      ∀ v : PyVal, v.isDict = false → create_notion_context v = pyStr v := by
  constructor
  · intro kvs
    show String.intercalate "\n"
        (kvs.foldl (fun parts kv => parts ++ [kv.1 ++ ": " ++ json_dumps_indent2 kv.2]) []) = _
    rw [foldl_append_map (fun kv : String × PyVal => kv.1 ++ ": " ++ json_dumps_indent2 kv.2),
      List.nil_append]
  · intro v hv
    cases v with
    | dict kvs => cases hv
    | str s => rfl
    | int n => rfl
    | none_ => rfl
    | list xs => rfl

/-- Claim C9 witness at a concrete non-dictionary input. -/
theorem claim_C9_witness :
    create_notion_context (.list [.str "x"]) = pyStr (.list [.str "x"]) :=
  claim_C9_compressor.2 (.list [.str "x"]) rfl

/-! ## Paginated Fetcher theorems (claims C1 and C8) -/

/-- The pagination loop returns the accumulator followed by the
concatenated `results` of the status-200 responses among the consumed
pages, for any accumulator and cursor state. -/
theorem fetch_loop_spec :
    ∀ (rs : List PageResponse) (acc : List RawPage) (c : Option String),
      fetch_loop rs acc c =
        acc ++ (((consumedPages rs).filter fun r => r.status_code == 200).map
          PageResponse.results).flatten := by
  intro rs
  induction rs with
  | nil => intro acc c; simp [fetch_loop, consumedPages]
  | cons r rest ih =>
      intro acc c
      by_cases hs : (r.status_code == 200) = true
      · by_cases hm : r.has_more = true
        · simp [fetch_loop, consumedPages, hs, hm, ih, List.filter_cons]
        · simp [fetch_loop, consumedPages, hs, hm, List.filter_cons]
      · simp [fetch_loop, consumedPages, hs, List.filter_cons]

/-- No response is consumed from an empty remote trace, and conversely. -/
theorem consumedPages_eq_nil_iff (rs : List PageResponse) :
    consumedPages rs = [] ↔ rs = [] := by
  cases rs with
  | nil => simp [consumedPages]
  | cons r rest => simp [consumedPages]

/-- The consumed pages form a prefix of the provided response trace. -/
theorem consumedPages_isPrefixOf : ∀ rs : List PageResponse, consumedPages rs <+: rs := by
  intro rs
  induction rs with
  | nil => simp [consumedPages]
  | cons r rest ih =>
      simp only [consumedPages]
      by_cases h : (r.status_code == 200 && r.has_more) = true
      · rw [if_pos h]; exact List.cons_prefix_cons.mpr ⟨rfl, ih⟩
      · rw [if_neg h]; exact List.cons_prefix_cons.mpr ⟨rfl, List.nil_prefix⟩

/-- Every consumed page except possibly the last is a 200 response
reporting more data. -/
theorem consumedPages_dropLast_good :
    ∀ rs : List PageResponse, ∀ r ∈ (consumedPages rs).dropLast,
      r.status_code = 200 ∧ r.has_more = true := by
  intro rs
  induction rs with
  | nil => intro r hr; simp [consumedPages] at hr
  | cons p rest ih =>
      intro r hr
      simp only [consumedPages] at hr
      by_cases h : (p.status_code == 200 && p.has_more) = true
      · rw [if_pos h] at hr
        cases hc : consumedPages rest with
        | nil => rw [hc] at hr; simp at hr
        | cons q qs =>
            rw [hc, List.dropLast_cons₂] at hr
            rcases List.mem_cons.mp hr with rfl | hr'
            · have h' := h
              simp only [Bool.and_eq_true, beq_iff_eq] at h'
              exact h'
            · exact ih r (hc ▸ hr')
      · rw [if_neg h] at hr; simp at hr

/-- When the loop stops before exhausting the provided trace, the last
consumed page is the stopping page: not a 200, or no more data. -/
theorem consumedPages_stop :
    ∀ rs : List PageResponse, consumedPages rs ≠ rs →
      ∃ last, (consumedPages rs).getLast? = some last ∧
        (last.status_code ≠ 200 ∨ last.has_more = false) := by
  intro rs
  induction rs with
  | nil => intro h; exact absurd (by simp [consumedPages]) h
  | cons p rest ih =>
      intro hne
      simp only [consumedPages] at hne ⊢
      by_cases h : (p.status_code == 200 && p.has_more) = true
      · rw [if_pos h] at hne ⊢
        have hcr : consumedPages rest ≠ rest := fun he => hne (by rw [he])
        cases hc : consumedPages rest with
        | nil =>
            exact absurd ((consumedPages_eq_nil_iff rest).mp hc ▸ hc) hcr
        | cons q qs =>
            obtain ⟨last, hlast, hbad⟩ := ih hcr
            rw [hc] at hlast
            refine ⟨last, ?_, hbad⟩
            rw [List.getLast?_cons_cons]
            exact hlast
      · rw [if_neg h] at hne ⊢
        refine ⟨p, by simp, ?_⟩
        simp only [Bool.and_eq_true, beq_iff_eq] at h
        rcases Decidable.not_and_iff_or_not.mp h with h1 | h2
        · exact Or.inl h1
        · exact Or.inr (Bool.not_eq_true _ ▸ h2)

/-- Claim C1: one fetch run returns exactly the page-ordered
concatenation of the `results` of the consumed status-200 pages (so its
length is the sum of their lengths), the consumed pages are a prefix of
the remote trace in which every page before the last is a 200 response
with `has_more`, and whenever the loop stops inside the trace the last
consumed page is a failing page or one with `has_more = false`; a
failing page still yields the accumulated records, never an error. -/
theorem claim_C1_fetcher (responses : List PageResponse) :
    get_all_database_entries responses =
        (((consumedPages responses).filter fun r => r.status_code == 200).map
          PageResponse.results).flatten ∧
      (get_all_database_entries responses).length =
        ((((consumedPages responses).filter fun r => r.status_code == 200).map
          fun r => r.results.length).sum) ∧
      consumedPages responses <+: responses ∧
      (∀ r ∈ (consumedPages responses).dropLast, r.status_code = 200 ∧ r.has_more = true) ∧
      (consumedPages responses ≠ responses →
        ∃ last, (consumedPages responses).getLast? = some last ∧
          (last.status_code ≠ 200 ∨ last.has_more = false)) := by
  refine ⟨fetch_loop_spec responses [] none, ?_, consumedPages_isPrefixOf responses,
    consumedPages_dropLast_good responses, consumedPages_stop responses⟩
  rw [show get_all_database_entries responses = _ from fetch_loop_spec responses [] none]
  simp only [List.nil_append, List.length_flatten, List.map_map]
  rfl

/-- Claim C1 witness: a run whose first page fails stops there, returns
no records, and reports the failing page as the stopping point. -/
theorem claim_C1_witness :
    get_all_database_entries
        [⟨500, [], true, none⟩, ⟨200, [⟨some "1", none, none, []⟩], false, none⟩] = [] ∧
      ∃ last,
        (consumedPages
          [⟨500, [], true, none⟩, ⟨200, [⟨some "1", none, none, []⟩], false, none⟩]).getLast? =
          some last ∧ (last.status_code ≠ 200 ∨ last.has_more = false) :=
  ⟨(claim_C1_fetcher _).1.trans (by decide),
    (claim_C1_fetcher
      [⟨500, [], true, none⟩, ⟨200, [⟨some "1", none, none, []⟩], false, none⟩]).2.2.2.2
      (by decide)⟩

/-- The cursor trace of the pagination loop: the first consumed request
carries the starting cursor state and each later one the truthy part of
the `next_cursor` of the previous consumed response. -/
theorem cursor_loop_spec :
    ∀ (rs : List PageResponse) (c : Option String),
      cursor_loop rs c =
        (sentCursor c :: ((consumedPages rs).dropLast.map fun r => sentCursor r.next_cursor)).take
          (consumedPages rs).length := by
  intro rs
  induction rs with
  | nil => intro c; simp [cursor_loop, consumedPages]
  | cons r rest ih =>
      intro c
      simp only [cursor_loop, consumedPages]
      by_cases h : (r.status_code == 200 && r.has_more) = true
      · rw [if_pos h, if_pos h, ih]
        cases hc : consumedPages rest with
        | nil => simp
        | cons q qs => simp [List.dropLast_cons₂]
      · rw [if_neg h, if_neg h]
        simp

/-- Claim C8 (amended): the first request of a run carries no
`start_cursor`, and each subsequent request carries the `next_cursor` of
the previous response exactly when that cursor is truthy (a
non-null, non-empty string); a null or empty `next_cursor` yields a
request without a `start_cursor`. -/
theorem claim_C8_cursors (responses : List PageResponse) :
    fetchRequestCursors responses =
        ((none : Option String) ::
            ((consumedPages responses).dropLast.map fun r => sentCursor r.next_cursor)).take
          (consumedPages responses).length ∧
      (responses ≠ [] → (fetchRequestCursors responses).head? = some none) := by
  constructor
  · exact cursor_loop_spec responses none
  · intro hne
    cases responses with
    | nil => exact absurd rfl hne
    | cons r rest => rfl

/-- Claim C8 counterexample: with a first response that reports
`has_more = true` and `next_cursor = ""`, the second request carries no
`start_cursor` at all, not the empty-string cursor the claim as stated
would require. -/
theorem claim_C8_counterexample :
    ([⟨200, [], true, some ""⟩, ⟨200, [], false, none⟩] :
        List PageResponse).head?.map PageResponse.next_cursor = some (some "") ∧
      (fetchRequestCursors [⟨200, [], true, some ""⟩, ⟨200, [], false, none⟩])[1]? =
        some none ∧
      (some (some "") : Option (Option String)) ≠ some none := by
  refine ⟨rfl, ?_, by decide⟩
  decide

/-- Claim C8 witness: a two-page run with a truthy cursor. -/
theorem claim_C8_witness :
    (fetchRequestCursors [⟨200, [], true, some "c"⟩, ⟨200, [], false, none⟩]).head? =
      some none :=
  (claim_C8_cursors [⟨200, [], true, some "c"⟩, ⟨200, [], false, none⟩]).2 (by decide)

/-! ## Recency window theorems (claim C3) -/

/-- The recency loop in `map` / `filter` form: one pair per configured
database holding the parsed qualifying entries, with the empty ones
dropped. -/
theorem get_recent_entries_spec (dbs : List String) (remote : String → List PageResponse)
    (cutoff : String) :
    get_recent_entries dbs remote cutoff =
      (dbs.map fun db => (db,
        ((get_all_database_entries (remote db)).filter fun e =>
          strLe cutoff (e.created_time.getD "")).map parse_notion_page)).filter
        fun p => !p.2.isEmpty := by
  show dbs.foldl _ [] = _
  suffices h : ∀ (l : List String) (init : List (String × List ParsedPage)),
      l.foldl
          (fun recent db_id =>
            let entries := get_all_database_entries (remote db_id)
            let recent_entries := entries.foldl
              (fun re entry =>
                if strLe cutoff (entry.created_time.getD "") then re ++ [parse_notion_page entry]
                else re)
              []
            if recent_entries.isEmpty then recent else recent ++ [(db_id, recent_entries)])
          init =
        init ++ (l.map fun db => (db,
          ((get_all_database_entries (remote db)).filter fun e =>
            strLe cutoff (e.created_time.getD "")).map parse_notion_page)).filter
          fun p => !p.2.isEmpty by
    simpa using h dbs []
  intro l
  induction l with
  | nil => intro init; simp
  | cons db rest ih =>
      intro init
      simp only [List.foldl_cons, List.map_cons, List.filter_cons]
      rw [ih, foldl_guard_append_map (fun entry => strLe cutoff (entry.created_time.getD ""))
        parse_notion_page (get_all_database_entries (remote db)) []]
      simp only [List.nil_append]
      by_cases he :
          (((get_all_database_entries (remote db)).filter fun e =>
            strLe cutoff (e.created_time.getD "")).map parse_notion_page).isEmpty = true
      · simp [he]
      · simp [he, List.append_assoc]

/-- Claim C3: a database appears in the recency result exactly when it
is configured and at least one fetched raw record has `created_time`
lexically at or above the cutoff string; its entries are exactly the
parses of those qualifying records, in remote order, and databases with
no qualifying record are omitted. -/
theorem claim_C3_recent (dbs : List String) (remote : String → List PageResponse)
    (cutoff db : String) (entries : List ParsedPage) :
    (db, entries) ∈ get_recent_entries dbs remote cutoff ↔
      db ∈ dbs ∧ entries ≠ [] ∧
        entries = ((get_all_database_entries (remote db)).filter fun e =>
          strLe cutoff (e.created_time.getD "")).map parse_notion_page := by
  rw [get_recent_entries_spec, List.mem_filter, List.mem_map]
  constructor
  · rintro ⟨⟨db', hdb', heq⟩, hne⟩
    have h1 : db' = db := congrArg Prod.fst heq
    have h2 := congrArg Prod.snd heq
    subst h1
    simp only at h2 hne
    simp only [Bool.not_eq_true', List.isEmpty_eq_false] at hne
    exact ⟨hdb', hne, h2.symm⟩
  · rintro ⟨hdb, hne, he⟩
    refine ⟨⟨db, hdb, by rw [← he]⟩, ?_⟩
    simp only [Bool.not_eq_true', List.isEmpty_eq_false]
    exact hne

/-- Claim C3 witness: one qualifying and one stale record, and a
database with no qualifying record omitted. -/
theorem claim_C3_witness :
    ("d1", [parse_notion_page ⟨some "1", none, some "2024-02-01T00:00:00", []⟩]) ∈
        get_recent_entries ["d1", "d2"]
          (fun db =>
            if db == "d1" then
              [⟨200, [⟨some "1", none, some "2024-02-01T00:00:00", []⟩,
                ⟨some "2", none, some "2023-01-01T00:00:00", []⟩], false, none⟩]
            else [⟨200, [⟨some "3", none, some "2023-06-01T00:00:00", []⟩], false, none⟩])
          "2024-01-25T00:00:00" :=
  (claim_C3_recent _ _ _ "d1" _).mpr ⟨by decide, by decide, by decide⟩

/-! ## Keyword search theorems (claim C4) -/

/-- Claim C4: the search result is the flat concatenation, over the
configured databases in order, of the parsed entries (in remote order)
whose lower-cased compact JSON serialization of `properties` contains
the lower-cased search term as a substring, each paired with its
database id. -/
theorem claim_C4_search (dbs : List String) (remote : String → List PageResponse)
    (keyword : String) :
    search_databases dbs remote keyword =
      dbs.flatMap fun db =>
        (((get_all_database_entries (remote db)).map parse_notion_page).filter fun p =>
          strContains (strToLower (jsonDumpProps p.properties)) (strToLower keyword)).map
          fun p => (db, p) := by
  show dbs.foldl _ [] = _
  suffices h : ∀ (l : List String) (init : List (String × ParsedPage)),
      l.foldl
          (fun results db_id =>
            (get_all_database_entries (remote db_id)).foldl
              (fun rs entry =>
                let parsed := parse_notion_page entry
                let entry_text := strToLower (jsonDumpProps parsed.properties)
                if strContains entry_text (strToLower keyword) then rs ++ [(db_id, parsed)]
                else rs)
              results)
          init =
        init ++ l.flatMap fun db =>
          (((get_all_database_entries (remote db)).map parse_notion_page).filter fun p =>
            strContains (strToLower (jsonDumpProps p.properties)) (strToLower keyword)).map
            fun p => (db, p) by
    simpa using h dbs []
  intro l
  induction l with
  | nil => intro init; simp
  | cons db rest ih =>
      intro l_init
      simp only [List.foldl_cons, List.flatMap_cons]
      rw [foldl_guard_append_map
        (fun entry =>
          strContains (strToLower (jsonDumpProps (parse_notion_page entry).properties))
            (strToLower keyword))
        (fun entry => (db, parse_notion_page entry)) (get_all_database_entries (remote db))
        l_init, ih, List.filter_map, List.map_map, List.append_assoc]
      rfl

/-- Claim C4 witness: the record holding `Awards: Best Picture` matches
the lower-cased term `best`. -/
theorem claim_C4_witness :
    search_databases ["db"]
        (fun _ =>
          [⟨200, [⟨some "1", none, none, [("Awards", .rich_text [⟨some "Best Picture"⟩])]⟩],
            false, none⟩])
        "best" =
      [("db", parse_notion_page
        ⟨some "1", none, none, [("Awards", .rich_text [⟨some "Best Picture"⟩])]⟩)] :=
  (claim_C4_search _ _ _).trans (by decide)

/-! ## Chat intent theorems (claim C6) -/

/-- The term scan yields `some t` exactly when some word at an index
`i` followed by at least one more word lower-cases into the trigger
list, no earlier word does, and `t` is the word at `i + 1`. -/
theorem extract_search_term_spec :
    ∀ (ws : List String) (t : String),
      extract_search_term ws = some t ↔
        ∃ i, i + 1 < ws.length ∧
          chat_trigger_words.contains (strToLower (ws.getD i "")) = true ∧
          (∀ j, j < i → chat_trigger_words.contains (strToLower (ws.getD j "")) = false) ∧
          t = ws.getD (i + 1) "" := by
  intro ws
  induction ws with
  | nil =>
      intro t
      simp only [extract_search_term]
      constructor
      · rintro ⟨⟩
      · rintro ⟨i, hi, -⟩; exact absurd hi (by simp)
  | cons w rest ih =>
      intro t
      show (if (chat_trigger_words.contains (strToLower w) && !rest.isEmpty) = true
          then rest.head? else extract_search_term rest) = some t ↔ _
      by_cases hw : chat_trigger_words.contains (strToLower w) = true
      · cases rest with
        | nil =>
            rw [if_neg (by simp)]
            show extract_search_term [] = some t ↔ _
            simp only [extract_search_term]
            constructor
            · rintro ⟨⟩
            · rintro ⟨i, hi, -⟩
              simp only [List.length_cons, List.length_nil] at hi
              omega
        | cons r rs =>
            rw [if_pos (by rw [hw]; rfl)]
            simp only [List.head?_cons]
            constructor
            · rintro h
              refine ⟨0, by simp only [List.length_cons]; omega, by simpa using hw,
                fun j hj => absurd hj (Nat.not_lt_zero j), ?_⟩
              simpa using (Option.some.inj h).symm
            · rintro ⟨i, hi, htrig, hmin, ht⟩
              cases i with
              | zero => simp only [List.getD_cons_succ, List.getD_cons_zero] at ht; rw [ht]
              | succ i' =>
                  have h0 := hmin 0 (Nat.succ_pos i')
                  rw [List.getD_cons_zero] at h0
                  rw [h0] at hw
                  cases hw
      · have hw' : chat_trigger_words.contains (strToLower w) = false := Bool.not_eq_true _ ▸ hw
        rw [if_neg (by rw [hw']; simp)]
        rw [ih t]
        constructor
        · rintro ⟨i, hi, htrig, hmin, ht⟩
          refine ⟨i + 1, by simp only [List.length_cons]; omega,
            by simp only [List.getD_cons_succ]; exact htrig, ?_,
            by simp only [List.getD_cons_succ]; exact ht⟩
          intro j hj
          cases j with
          | zero => simp only [List.getD_cons_zero]; exact hw'
          | succ j' =>
              rw [List.getD_cons_succ]
              exact hmin j' (by omega)
        · rintro ⟨i, hi, htrig, hmin, ht⟩
          cases i with
          | zero =>
              rw [List.getD_cons_zero] at htrig
              exact absurd htrig hw
          | succ i' =>
              refine ⟨i', by simp only [List.length_cons] at hi; omega,
                by simp only [List.getD_cons_succ] at htrig; exact htrig, ?_,
                by simp only [List.getD_cons_succ] at ht; exact ht⟩
              intro j hj
              have hj1 := hmin (j + 1) (by omega)
              rwa [List.getD_cons_succ] at hj1

/-- Claim C6 counterexample: the message `tell me about Zendaya` has no
occurrence of `recent` or `latest`, contains the word `about` followed
by the token `Zendaya`, yet the handler performs no keyword search at
all, because none of the fetch-trigger substrings (`search`, `find`,
`recent`, `latest`, `show me`, `what`) occurs in the message. -/
theorem claim_C6_counterexample :
    strContains (strToLower "tell me about Zendaya") "recent" = false ∧
      strContains (strToLower "tell me about Zendaya") "latest" = false ∧
      (pySplit "tell me about Zendaya").getD 2 "" = "about" ∧
      chat_trigger_words.contains (strToLower ((pySplit "tell me about Zendaya").getD 2 "")) =
        true ∧
      2 + 1 < (pySplit "tell me about Zendaya").length ∧
      chat_data_action "tell me about Zendaya" = .no_data := by
  decide

/-- Claim C6 (amended): for a message without `recent` / `latest`, the
handler triggers a keyword search on term `t` exactly when one of the
fetch-trigger substrings (`search`, `find`, `show me`, `what`) occurs in
the lower-cased message and the first whitespace-token that lower-cases
to `search`, `find` or `about` and is followed by another token has `t`
as that following token. -/
theorem claim_C6_chat_search (msg t : String)
    (hr : strContains (strToLower msg) "recent" = false)
    (hl : strContains (strToLower msg) "latest" = false) :
    chat_data_action msg = .search t ↔
      search_keywords.any (fun k => strContains (strToLower msg) k) = true ∧
        ∃ i, i + 1 < (pySplit msg).length ∧
          chat_trigger_words.contains (strToLower ((pySplit msg).getD i "")) = true ∧
          (∀ j, j < i →
            chat_trigger_words.contains (strToLower ((pySplit msg).getD j "")) = false) ∧
          t = (pySplit msg).getD (i + 1) "" := by
  rw [← extract_search_term_spec]
  show (if (search_keywords.any fun k => strContains (strToLower msg) k) = true
      then _ else _) = _ ↔ _
  by_cases hs : (search_keywords.any fun k => strContains (strToLower msg) k) = true
  · rw [if_pos hs, hr, hl]
    simp only [Bool.or_self, Bool.false_eq_true, if_false, hs, true_and]
    cases h : extract_search_term (pySplit msg) with
    | none =>
        constructor
        · rintro ⟨⟩
        · rintro he
          exact Option.noConfusion he
    | some u =>
        constructor
        · rintro he
          have hu : u = t := by simpa using he
          rw [hu]
        · rintro he
          rw [Option.some.inj he]
  · rw [if_neg hs]
    constructor
    · rintro ⟨⟩
    · rintro ⟨hs', -⟩; exact absurd hs' hs

/-- Claim C6 witness: `search Zendaya` triggers a search on `Zendaya`. -/
theorem claim_C6_witness :
    chat_data_action "search Zendaya" = .search "Zendaya" :=
  (claim_C6_chat_search "search Zendaya" "Zendaya" (by decide) (by decide)).mpr
    ⟨by decide, 0, by decide, by decide, fun j hj => absurd hj (Nat.not_lt_zero j), by decide⟩

/-! ## Chat route theorems (claim C7) -/

/-- Claim C7: with a configured generation key, a POST whose parsed
JSON body is absent, the empty dictionary, or any dictionary without a
`message` key yields HTTP 400; with no (or an empty) generation key the
handler yields HTTP 500 before even looking at the body. -/
theorem claim_C7_chat_errors :
    (∀ (g : Option String) (data : List (String × String)), envTruthy g = true →
        data.find? (fun kv => kv.1 == "message") = none →
        chat_route "POST" g (some data) = .badRequest400) ∧
      (∀ g : Option String, envTruthy g = true → chat_route "POST" g none = .badRequest400) ∧
      ∀ (g : Option String) (body : Option (List (String × String))), envTruthy g = false →
        chat_route "POST" g body = .serverError500 := by
  refine ⟨?_, ?_, ?_⟩
  · intro g data hg hf
    show (if ("POST" == "OPTIONS") = true then _ else _) = _
    rw [if_neg (by decide), hg]
    cases data with
    | nil => rfl
    | cons kv rest =>
        simp only [Bool.not_true, Bool.false_eq_true, if_false, List.isEmpty_cons, hf]
  · intro g hg
    show (if ("POST" == "OPTIONS") = true then _ else _) = _
    rw [if_neg (by decide), hg]
    rfl
  · intro g body hg
    show (if ("POST" == "OPTIONS") = true then _ else _) = _
    rw [if_neg (by decide), hg]
    rfl

/-- Claim C7 witness: the empty body `\x7b\x7d` is rejected with 400
when the key is set, and a missing key yields 500 even with a valid
body. -/
theorem claim_C7_witness :
    chat_route "POST" (some "k") (some []) = .badRequest400 ∧
      chat_route "POST" none (some [("message", "hi")]) = .serverError500 :=
  ⟨claim_C7_chat_errors.1 (some "k") [] (by decide) rfl,
    claim_C7_chat_errors.2.2 none (some [("message", "hi")]) rfl⟩

/-! ## Search route theorems (claim C10) -/

/-- Claim C10: the `/search` handler answers 400 exactly when the
`keyword` query parameter is absent or present with the empty string;
for any non-empty keyword it runs the search and answers with the match
count and the first ten matches. -/
theorem claim_C10_search_route (dbs : List String) (remote : String → List PageResponse)
    (p : Option String) :
    (search_route dbs remote p = .badRequest400 ↔ p = none ∨ p = some "") ∧
      ∀ kw : String, p = some kw → kw ≠ "" →
        search_route dbs remote p =
          .ok kw (search_databases dbs remote kw).length
            ((search_databases dbs remote kw).take 10) := by
  constructor
  · cases p with
    | none => simp [search_route, show ("" : String).isEmpty = true from rfl]
    | some s =>
        by_cases hs : s = ""
        · subst hs
          simp [search_route, show ("" : String).isEmpty = true from rfl]
        · have hne : s.isEmpty = false := by
            cases h : s.isEmpty with
            | false => rfl
            | true => exact absurd ((String.isEmpty_iff s).mp h) hs
          simp [search_route, hne, hs]
  · intro kw hp hkw
    subst hp
    have hne : kw.isEmpty = false := by
      cases h : kw.isEmpty with
      | false => rfl
      | true => exact absurd ((String.isEmpty_iff kw).mp h) hkw
    simp [search_route, hne]

/-- Claim C10 witness: an empty-string keyword parameter is rejected. -/
theorem claim_C10_witness :
    search_route [] (fun _ => []) (some "") = .badRequest400 :=
  (claim_C10_search_route [] (fun _ => []) (some "")).1.mpr (Or.inr rfl)

end NotionApp
